import Mathlib

/-!
Verification of the source segmentation engine of SecLint.

This file gives a shallow embedding of the function split_code from
src/preprocess/code_splitter.py and proves properties of it.

The embedding mirrors the Python code statement by statement:

* the ast node classes the code inspects become the inductive types
  Cmpop, Const, Expr and Stmt below; each top-level node carries its
  parser-reported line numbers, its exact original source slice
  (ast.get_source_segment) and its reconstructed text (ast.unparse)
  as data in NodeInfo, since those come from the parser, not from
  split_code itself;
* the chunk dictionaries become the structures Metadata and Chunk;
  a metadata key that is absent from the dict is modelled as none;
* the for-loop of split_code becomes a left fold with explicit state
  LoopState (the slices list, the global_vars accumulator, the printed
  diagnostics, and the chunk/node variables left over from the last
  iteration, which the code mutates after the loop);
* the in-place mutation after the loop (lines 75-82 of the source)
  becomes a pure replacement of the last element of the slices list
  when and only when that element is the chunk object aliased by the
  local variable chunk, exactly as the reference semantics of Python
  makes visible to the caller.
-/

namespace SecLint

/-- Python comparison operator classes (ast.cmpop). -/
inductive Cmpop
  | eq | notEq | lt | ltE | gt | gtE | isCmp | isNotCmp | inCmp | notInCmp
deriving DecidableEq

/-- Constant literal values (ast.Constant.value) as far as the splitter
compares them with the string literal used for entry-point detection. -/
inductive Const
  | str (s : String)
  | int (n : Int)
  | boolVal (b : Bool)
  | noneVal
  | otherLit
deriving DecidableEq

/-- Expression shapes the splitter inspects on the test of an If node
(ast.Compare, ast.Name, ast.Constant, ast.BoolOp); every other
expression form is collapsed into otherExpr, which split_code never
looks inside. -/
inductive Expr
  | name (id : String)
  | const (v : Const)
  | compare (left : Expr) (ops : List Cmpop) (comparators : List Expr)
  | boolOp (values : List Expr)
  | otherExpr

/-- Attributes of a top-level ast node that the parser supplies:
lineno, end_lineno, the exact original source slice returned by
ast.get_source_segment code node, and the reconstructed text returned
by ast.unparse node. -/
structure NodeInfo where
  lineno : Nat
  end_lineno : Nat
  src : String
  unparsed : String
deriving DecidableEq

/-- Top-level statements, one constructor per ast class that split_code
distinguishes with isinstance; the catch-all constructor carries the
class name that the diagnostic of the final else branch would print. -/
inductive Stmt
  | functionDef (name : String) (info : NodeInfo)
  | asyncFunctionDef (name : String) (info : NodeInfo)
  | classDef (name : String) (info : NodeInfo)
  | importStmt (info : NodeInfo)
  | importFrom (info : NodeInfo)
  | assign (info : NodeInfo)
  | annAssign (info : NodeInfo)
  | augAssign (info : NodeInfo)
  | globalStmt (info : NodeInfo)
  | ifStmt (test : Expr) (info : NodeInfo)
  | other (kind : String) (info : NodeInfo)

/-- type(node).__name__, also node.__class__.__name__, of a top-level node. -/
def className : Stmt → String
  | Stmt.functionDef _ _ => "FunctionDef"
  | Stmt.asyncFunctionDef _ _ => "AsyncFunctionDef"
  | Stmt.classDef _ _ => "ClassDef"
  | Stmt.importStmt _ => "Import"
  | Stmt.importFrom _ => "ImportFrom"
  | Stmt.assign _ => "Assign"
  | Stmt.annAssign _ => "AnnAssign"
  | Stmt.augAssign _ => "AugAssign"
  | Stmt.globalStmt _ => "Global"
  | Stmt.ifStmt _ _ => "If"
  | Stmt.other kind _ => kind

/-- The metadata dict of a chunk. The template built at the top of
split_code maps name and type to None and file_name to the argument;
every branch that fills a chunk replaces the whole dict by one holding
only name and type. A key that is absent from the dict is none. -/
structure Metadata where
  name : Option String
  type : Option String
  file_name : Option String
deriving DecidableEq

/-- One output chunk: the dict code_chunks of split_code. Fields that
the template initialises to None are Options. -/
structure Chunk where
  metadata : Metadata
  start_line : Option Nat
  end_line : Option Nat
  code : Option String
deriving DecidableEq

/-- The template dict code_chunks, deep-copied for every node. -/
def chunkTemplate (file_name : String) : Chunk :=
  ⟨⟨none, none, some file_name⟩, none, none, none⟩

/-- Splitting a character list at newline characters, the effect of
str.splitlines on text whose only line terminator is the newline
character (true of ast.unparse output). -/
def splitOnNl : List Char → List (List Char)
  | [] => [[]]
  | c :: rest =>
      match splitOnNl rest with
      | [] => [[]]
      | line :: ls => if c = '\n' then [] :: line :: ls else (c :: line) :: ls

/-- Truthiness of l.strip(): a line is blank when all of its characters
are whitespace. -/
def isBlank (l : List Char) : Bool :=
  l.all (fun c => c.isWhitespace)

/-- Joining lines with newline characters, the effect of
a newline join over a list of lines. -/
def joinNl : List (List Char) → List Char
  | [] => []
  | [l] => l
  | l :: rest => l ++ '\n' :: joinNl rest

/-- Line 28 and line 62 of the source: keep only the lines whose
stripped form is truthy and join them back with newlines. -/
def removeBlankLines (s : String) : String :=
  String.mk (joinNl ((splitOnNl s.data).filter (fun l => isBlank l = false)))

/-- Python equality between an ast.Constant value and the string
literal for the main module: only the equal string compares true. -/
def constIsMainStr : Const → Bool
  | Const.str s => s == "__main__"
  | _ => false

/-- The test of the elif at lines 52-60 of the source, applied to the
test expression of an If node: the test must be a Compare whose left
operand is a Name with the dunder-name identifier, with exactly one
comparator, that comparator being a Constant equal to the main-module
string. The list of comparison operators is never inspected. -/
def entryPointTest : Expr → Bool
  | Expr.compare (Expr.name id) _ [Expr.const v] =>
      id == "__name__" && constIsMainStr v
  | _ => false

/-- The value of the local variable chunk after the if-elif-else chain
of one loop iteration. Branches that only buffer (bindings) or only
print (the else branch) leave the deep-copied template untouched, so
its code field stays none and the chunk is not appended. -/
def buildChunk (file_name : String) (node : Stmt) : Chunk :=
  match node with
  | Stmt.functionDef fname info =>
      ⟨⟨some fname, some ("FunctionDef"), none⟩,
        some info.lineno, some info.end_lineno, some (removeBlankLines info.unparsed)⟩
  | Stmt.asyncFunctionDef fname info =>
      ⟨⟨some fname, some ("AsyncFunctionDef"), none⟩,
        some info.lineno, some info.end_lineno, some (removeBlankLines info.unparsed)⟩
  | Stmt.classDef cname info =>
      ⟨⟨some cname, some ("ClassDef"), none⟩,
        some info.lineno, some info.end_lineno, some (removeBlankLines info.unparsed)⟩
  | Stmt.importStmt info =>
      ⟨⟨some ("Import"), some ("Import"), none⟩,
        some info.lineno, some info.end_lineno, some info.src⟩
  | Stmt.importFrom info =>
      ⟨⟨some ("ImportFrom"), some ("ImportFrom"), none⟩,
        some info.lineno, some info.end_lineno, some info.src⟩
  | Stmt.assign _ => chunkTemplate file_name
  | Stmt.annAssign _ => chunkTemplate file_name
  | Stmt.augAssign _ => chunkTemplate file_name
  | Stmt.globalStmt _ => chunkTemplate file_name
  | Stmt.ifStmt test info =>
      if entryPointTest test then
        ⟨⟨some ("If"), some ("If"), none⟩,
          some info.lineno, some info.end_lineno, some (removeBlankLines info.unparsed)⟩
      else chunkTemplate file_name
  | Stmt.other _ _ => chunkTemplate file_name

/-- The elif at lines 48-50 of the source: the exact original source
slice of a binding statement, none for every other statement. -/
def bindingSrc : Stmt → Option String
  | Stmt.assign info => some info.src
  | Stmt.annAssign info => some info.src
  | Stmt.augAssign info => some info.src
  | Stmt.globalStmt info => some info.src
  | _ => none

/-- What one loop iteration adds to the accumulator global_vars. -/
def gvContribution (node : Stmt) : String :=
  match bindingSrc node with
  | some s => s ++ "\n"
  | none => ""

/-- The diagnostic printed by the final else branch at line 71 of the
source, for the statements that reach it: an If whose test fails the
entry-point check, and any unrecognized construct. -/
def diagnosticMsg : Stmt → Option String
  | Stmt.ifStmt test _ =>
      if entryPointTest test then none
      else some ("Skipping node of type If")
  | Stmt.other kind _ => some ("Skipping node of type " ++ kind)
  | _ => none

/-- The mutable state of the for-loop of split_code: the slices list,
the accumulator global_vars, the diagnostics printed so far, and the
node of the most recent iteration (whose chunk object the code mutates
after the loop; the chunk itself is recomputed by buildChunk). -/
structure LoopState where
  slices : List Chunk
  global_vars : String
  diagnostics : List String
  last : Option Stmt

/-- One iteration of the for-loop at lines 22-73 of the source: build
the branch result for the node, extend global_vars when the node is a
binding, print the diagnostic when the node is unrecognized, and append
the chunk exactly when its code field was set. -/
def stepLoop (file_name : String) (st : LoopState) (node : Stmt) : LoopState :=
  ⟨(if (buildChunk file_name node).code.isSome
      then st.slices ++ [buildChunk file_name node] else st.slices),
    st.global_vars ++ gvContribution node,
    st.diagnostics ++ (diagnosticMsg node).toList,
    some node⟩

/-- The whole for-loop, starting from empty slices, empty global_vars,
nothing printed, and no iteration run yet. -/
def runLoop (file_name : String) (body : List Stmt) : LoopState :=
  body.foldl (stepLoop file_name) ⟨[], "", [], none⟩

/-- The field values written into the aliased chunk object by the
fix-up at lines 75-82 of the source: code becomes the accumulated
global_vars, the span becomes the sentinel pair, and the metadata dict
is replaced using the class name of the node variable left over from
the last loop iteration and the literal type string of the source
(including its typo). -/
def gvOverwrite (gv : String) (node : Stmt) : Chunk :=
  ⟨⟨some (className node), some ("Gloal variable or assignment"), none⟩,
    some 0, some 0, some gv⟩

/-- The function split_code of src/preprocess/code_splitter.py, acting
on the parsed top-level statement list tree.body. After the loop, when
global_vars is non-empty, the code mutates the chunk object of the last
iteration in place; that mutation is visible in the returned list
exactly when that chunk was appended, that is when its code field is
set, and in that case the mutated object is the final element of
slices. Nothing is ever appended after the loop. -/
def split_code (file_name : String) (body : List Stmt) : List Chunk :=
  if (runLoop file_name body).global_vars ≠ "" then
    match (runLoop file_name body).last with
    | some node =>
        if (buildChunk file_name node).code.isSome then
          (runLoop file_name body).slices.dropLast ++
            [gvOverwrite (runLoop file_name body).global_vars node]
        else (runLoop file_name body).slices
    | none => (runLoop file_name body).slices
  else (runLoop file_name body).slices

/-- Modelled from the spec: the parser stage (Python ast.parse at line
6 of the source, whose own code is not part of this repository) fails
with a ParseError exactly when the input text is not syntactically
valid, and otherwise yields the list of top-level statements. A parse
outcome is therefore passed to the engine explicitly, the error case
standing for the ParseError raised out of split_code before any chunk
is produced. -/
def split_code_checked (parsed : Except String (List Stmt))
    (file_name : String) : Except String (List Chunk) :=
  match parsed with
  | Except.error e => Except.error e
  | Except.ok body => Except.ok (split_code file_name body)

/-- Modelled from the spec: empty input text is syntactically valid and
parses to a module with no top-level statements. -/
def parseOfEmptyInput : Except String (List Stmt) :=
  Except.ok []

/-- split_code together with its only side effect: the print calls.
The first component is the returned chunk list; the second is the
stdout log, the prior log extended by the diagnostics of this call.
There is no other state that a call reads or writes. -/
def split_code_logged (stdoutLog : List String) (file_name : String)
    (body : List Stmt) : List Chunk × List String :=
  (split_code file_name body, stdoutLog ++ (runLoop file_name body).diagnostics)

/-- The chunk a statement contributes to slices during the loop:
the built chunk when its code field was set, nothing otherwise. -/
def emittedChunk (file_name : String) (node : Stmt) : Option Chunk :=
  if (buildChunk file_name node).code.isSome
    then some (buildChunk file_name node) else none


/-! ### Structural lemmas about the loop -/

lemma foldl_slices (f : String) :
    ∀ (body : List Stmt) (st : LoopState),
      (body.foldl (stepLoop f) st).slices =
        st.slices ++ body.filterMap (emittedChunk f) := by
  intro body
  induction body with
  | nil => intro st; simp
  | cons a l ih =>
    intro st
    rw [List.foldl_cons, ih, List.filterMap_cons]
    unfold stepLoop emittedChunk
    by_cases h : (buildChunk f a).code.isSome
    · simp [h]
    · simp [h]

lemma runLoop_slices (f : String) (body : List Stmt) :
    (runLoop f body).slices = body.filterMap (emittedChunk f) := by
  have h := foldl_slices f body ⟨[], "", [], none⟩
  simpa [runLoop] using h

lemma foldl_gv_len (f : String) :
    ∀ (body : List Stmt) (st : LoopState),
      st.global_vars.length ≤ (body.foldl (stepLoop f) st).global_vars.length := by
  intro body
  induction body with
  | nil => intro st; simp
  | cons a l ih =>
    intro st
    rw [List.foldl_cons]
    refine le_trans ?_ (ih (stepLoop f st a))
    unfold stepLoop
    simp [String.length_append]

lemma gv_ne_of_binding (f : String) :
    ∀ (body : List Stmt) (st : LoopState) (n : Stmt), n ∈ body →
      (bindingSrc n).isSome = true →
      (body.foldl (stepLoop f) st).global_vars ≠ "" := by
  intro body
  induction body with
  | nil => intro st n hn; cases hn
  | cons a l ih =>
    intro st n hn hb
    rw [List.foldl_cons]
    cases hn with
    | head =>
      intro hcontra
      have hlen := foldl_gv_len f l (stepLoop f st a)
      rw [hcontra] at hlen
      unfold stepLoop at hlen
      simp [String.length_append] at hlen
      obtain ⟨-, h2⟩ := hlen
      unfold gvContribution at h2
      cases hs : bindingSrc a with
      | none => rw [hs] at hb; cases hb
      | some s =>
        rw [hs] at h2
        simp [String.length_append] at h2
        exact absurd h2.2 (by decide)
    | tail _ hmem => exact ih (stepLoop f st a) n hmem hb

lemma foldl_last_or (f : String) :
    ∀ (body : List Stmt) (st : LoopState),
      (body.foldl (stepLoop f) st).last = body.getLast?.or st.last := by
  intro body
  induction body with
  | nil => intro st; rfl
  | cons a l ih =>
    intro st
    rw [List.foldl_cons, ih]
    cases l with
    | nil => rfl
    | cons b t =>
      rw [List.getLast?_cons_cons]
      cases hlast : (b :: t).getLast? with
      | none =>
        have : (b :: t) ≠ [] := by simp
        have h2 : ((b :: t).getLast?).isSome := List.getLast?_isSome.mpr this
        rw [hlast] at h2
        cases h2
      | some x => rfl

lemma runLoop_last (f : String) (body : List Stmt) :
    (runLoop f body).last = body.getLast? := by
  have h := foldl_last_or f body ⟨[], "", [], none⟩
  simpa [runLoop] using h

lemma filterMap_if_sublist {α β : Type} (p : α → Bool) (g : α → β) :
    ∀ l : List α,
      List.Sublist (l.filterMap (fun n => if p n then some (g n) else none))
        (l.map g) := by
  intro l
  induction l with
  | nil => simp
  | cons a t ih =>
    rw [List.filterMap_cons, List.map_cons]
    by_cases h : p a
    · simp only [h, if_pos]
      exact List.Sublist.cons₂ (g a) ih
    · simp only [h]
      exact List.Sublist.cons (g a) ih

lemma slices_decomp (f : String) (body : List Stmt) (node : Stmt)
    (hlast : body.getLast? = some node)
    (hcode : (buildChunk f node).code.isSome = true) :
    (runLoop f body).slices =
      body.dropLast.filterMap (emittedChunk f) ++ [buildChunk f node] := by
  have hne : body ≠ [] := by
    intro h; rw [h] at hlast; cases hlast
  have hn : node = body.getLast hne := by
    have := List.getLast?_eq_getLast body hne
    rw [hlast] at this
    exact Option.some.inj this
  have hdecomp : body.dropLast ++ [node] = body := by
    rw [hn]; exact List.dropLast_append_getLast hne
  rw [runLoop_slices]
  conv_lhs => rw [← hdecomp]
  rw [List.filterMap_append]
  congr 1
  simp [emittedChunk, hcode]

lemma split_code_eq_of_last (f : String) (body : List Stmt) (node : Stmt)
    (hgv : (runLoop f body).global_vars ≠ "")
    (hl : (runLoop f body).last = some node) :
    split_code f body =
      (if (buildChunk f node).code.isSome then
        (runLoop f body).slices.dropLast ++
          [gvOverwrite (runLoop f body).global_vars node]
      else (runLoop f body).slices) := by
  unfold split_code
  rw [hl, if_pos hgv]

lemma split_code_eq_of_no_last (f : String) (body : List Stmt)
    (hl : (runLoop f body).last = none) :
    split_code f body = (runLoop f body).slices := by
  unfold split_code
  rw [hl]
  by_cases hgv : (runLoop f body).global_vars ≠ ""
  · rw [if_pos hgv]
  · rw [if_neg hgv]

/-! ### Concrete inputs used by the claim theorems -/

/-- Scenario with only top-level binding statements, the parse of the
two-line input with a plain and an annotated assignment. -/
def scenarioOnlyBindings : List Stmt :=
  [Stmt.assign ⟨1, 1, "x = 1", "x = 1"⟩,
   Stmt.annAssign ⟨2, 2, "y: int = 2", "y: int = 2"⟩]

/-- Scenario with two import lines followed by one class definition. -/
def scenarioImportsThenClass : List Stmt :=
  [Stmt.importStmt ⟨1, 1, "import os", "import os"⟩,
   Stmt.importStmt ⟨2, 2, "import sys", "import sys"⟩,
   Stmt.classDef ("C") ⟨3, 4, "class C:\n    pass", "class C:\n    pass"⟩]

/-- Test expression of an If using the not-equal operator between the
dunder name and the main-module string. -/
def neqMainTest : Expr :=
  Expr.compare (Expr.name ("__name__")) [Cmpop.notEq]
    [Expr.const (Const.str ("__main__"))]

/-- Scenario with a single If statement whose test compares with the
not-equal operator. -/
def scenarioNeqMain : List Stmt :=
  [Stmt.ifStmt neqMainTest
    ⟨1, 2, "if __name__ != \x27__main__\x27:\n    main()",
      "if __name__ != \x27__main__\x27:\n    main()"⟩]

/-- Scenario with one single-line function definition. -/
def scenarioSingleDef : List Stmt :=
  [Stmt.functionDef ("f") ⟨1, 1, "def f(): return 1", "def f():\n    return 1"⟩]

/-- Scenario with an assignment followed by a function definition, the
parse of a two-line input. -/
def bodyAssignThenDef : List Stmt :=
  [Stmt.assign ⟨1, 1, "x = 1", "x = 1"⟩,
   Stmt.functionDef ("f") ⟨2, 2, "def f(): return 1", "def f():\n    return 1"⟩]

/-! ### Claim theorems -/

/-- C1: evaluation of split_code at the failing input of the claim.
On input consisting only of the binding statements of Scenario E the
binding buffer ends the pass non-empty, yet the returned chunk sequence
is empty: no Binding chunk named for global variables is ever emitted,
because the end-of-pass code mutates the chunk object of the last loop
iteration instead of appending a new chunk, and for a binding statement
that object was never appended. -/
theorem C1_no_binding_chunk_emitted :
    split_code ("test.py") scenarioOnlyBindings = []
    ∧ (runLoop ("test.py") scenarioOnlyBindings).global_vars = "x = 1\ny: int = 2\n" :=
  ⟨rfl, rfl⟩

/-- C2 counterexample: on the input of Scenario B (two import lines
followed by one class definition) split_code returns three chunks, a
per-statement chunk for each import followed by the class chunk, not
the claimed two chunks with one aggregate import chunk; in particular
its length is not two. -/
theorem C2_per_statement_import_chunks :
    split_code ("test.py") scenarioImportsThenClass =
      [⟨⟨some ("Import"), some ("Import"), none⟩, some 1, some 1, some ("import os")⟩,
       ⟨⟨some ("Import"), some ("Import"), none⟩, some 2, some 2, some ("import sys")⟩,
       ⟨⟨some ("C"), some ("ClassDef"), none⟩, some 3, some 4, some ("class C:\n    pass")⟩]
    ∧ (split_code ("test.py") scenarioImportsThenClass).length ≠ 2 :=
  ⟨rfl, by decide⟩

/-- C2 amended: every import statement (plain or from-form) produces
its own per-statement chunk whose code is the exact original source
slice, whose span is the parser-reported line span of the node, and
whose metadata name and type both equal the ast class name; the chunk
is appended to the output during the pass, and no aggregate import
chunk exists, so the Scenario B input yields three chunks in source
order. -/
theorem C2_amended_imports_per_statement :
    (∀ (f : String) (info : NodeInfo),
      buildChunk f (Stmt.importStmt info) =
        ⟨⟨some ("Import"), some ("Import"), none⟩,
          some info.lineno, some info.end_lineno, some info.src⟩
      ∧ buildChunk f (Stmt.importFrom info) =
        ⟨⟨some ("ImportFrom"), some ("ImportFrom"), none⟩,
          some info.lineno, some info.end_lineno, some info.src⟩
      ∧ (runLoop f [Stmt.importStmt info]).slices = [buildChunk f (Stmt.importStmt info)])
    ∧ (split_code ("test.py") scenarioImportsThenClass).length = 3 :=
  ⟨fun _ _ => ⟨rfl, rfl, rfl⟩, rfl⟩

/-- C3 counterexample: an If statement whose test compares the dunder
name against the main-module string with the not-equal operator passes
the structural check of split_code and is emitted as an entry-point
chunk, contradicting the claim that any operator other than equality
falls through to the unrecognized handling. -/
theorem C3_not_equal_operator_matches :
    entryPointTest neqMainTest = true
    ∧ split_code ("test.py") scenarioNeqMain =
      [⟨⟨some ("If"), some ("If"), none⟩, some 1, some 2,
        some ("if __name__ != \x27__main__\x27:\n    main()")⟩] :=
  ⟨rfl, rfl⟩

/-- C3 amended: a top-level If statement is classified as an
entry-point block if and only if its test is a comparison whose left
operand is exactly the dunder-name identifier, with exactly one
comparator, and that comparator is exactly the main-module string
literal; the comparison operator is never inspected, so any operator
matches, while reversed operands, compound conditions, and any other
test shape still do not match. -/
theorem C3_amended_structural_match (test : Expr) :
    entryPointTest test = true ↔
      ∃ ops : List Cmpop,
        test = Expr.compare (Expr.name ("__name__")) ops
          [Expr.const (Const.str ("__main__"))] := by
  constructor
  · intro h
    cases test with
    | name id => exact Bool.noConfusion h
    | const v => exact Bool.noConfusion h
    | boolOp values => exact Bool.noConfusion h
    | otherExpr => exact Bool.noConfusion h
    | compare left ops comparators =>
      cases left with
      | const v => exact Bool.noConfusion h
      | compare l o c => exact Bool.noConfusion h
      | boolOp values => exact Bool.noConfusion h
      | otherExpr => exact Bool.noConfusion h
      | name id =>
        cases comparators with
        | nil => exact Bool.noConfusion h
        | cons c rest =>
          cases c with
          | name id2 => cases rest <;> exact Bool.noConfusion h
          | compare l o cs => cases rest <;> exact Bool.noConfusion h
          | boolOp values => cases rest <;> exact Bool.noConfusion h
          | otherExpr => cases rest <;> exact Bool.noConfusion h
          | const v =>
            cases rest with
            | cons c2 rest2 => exact Bool.noConfusion h
            | nil =>
              have h' : (id == "__name__" && constIsMainStr v) = true := h
              rw [Bool.and_eq_true] at h'
              obtain ⟨h1, h2⟩ := h'
              have hid : id = "__name__" := by simpa using h1
              cases v with
              | int n => exact Bool.noConfusion h2
              | boolVal b => exact Bool.noConfusion h2
              | noneVal => exact Bool.noConfusion h2
              | otherLit => exact Bool.noConfusion h2
              | str s =>
                have hs : s = "__main__" := by simpa [constIsMainStr] using h2
                subst hid
                subst hs
                exact ⟨ops, rfl⟩
  · rintro ⟨ops, rfl⟩
    rfl

/-- C4: when the input contains at least one top-level binding
statement, the end-of-pass handling appends no chunk: the output has
exactly as many chunks as the loop emitted, all chunks except possibly
the final one are unchanged, and the final position is overwritten in
place with the accumulated binding text, the sentinel span and the
replaced metadata exactly when the last top-level statement had emitted
a chunk; when the last statement emitted no chunk, the output is the
loop output unchanged and the binding text reaches no chunk at all. -/
theorem C4_bindings_overwrite_last_chunk (f : String) (body : List Stmt)
    (node : Stmt)
    (hmem : ∃ n ∈ body, (bindingSrc n).isSome = true)
    (hlast : body.getLast? = some node) :
    (split_code f body).length = (runLoop f body).slices.length
    ∧ (split_code f body).dropLast = (runLoop f body).slices.dropLast
    ∧ ((buildChunk f node).code.isSome = true →
        (split_code f body).getLast? =
          some (gvOverwrite (runLoop f body).global_vars node))
    ∧ ((buildChunk f node).code = none →
        split_code f body = (runLoop f body).slices) := by
  obtain ⟨n, hn, hb⟩ := hmem
  have hgv : (runLoop f body).global_vars ≠ "" :=
    gv_ne_of_binding f body ⟨[], "", [], none⟩ n hn hb
  have hlast' : (runLoop f body).last = some node := by
    rw [runLoop_last f body, hlast]
  have hsplit := split_code_eq_of_last f body node hgv hlast'
  cases hcode : (buildChunk f node).code with
  | none =>
    have hfalse : (buildChunk f node).code.isSome = false := by
      rw [hcode]; rfl
    rw [hsplit, hfalse]
    refine ⟨rfl, rfl, fun h => Bool.noConfusion h, fun _ => ?_⟩
    simp
  | some c =>
    have htrue : (buildChunk f node).code.isSome = true := by
      rw [hcode]; rfl
    have hdec := slices_decomp f body node hlast htrue
    rw [hsplit, htrue]
    refine ⟨?_, ?_, fun _ => ?_, fun hnone => ?_⟩
    · rw [if_pos rfl, hdec, List.dropLast_concat]
      simp [List.length_append]
    · rw [if_pos rfl, hdec, List.dropLast_concat, List.dropLast_concat]
    · rw [if_pos rfl]
      exact List.getLast?_concat _
    · exact Option.noConfusion hnone

/-- Witness for C4 at a concrete input: an assignment followed by a
function definition. The last statement emitted a chunk, so the final
element of the output is the overwritten chunk carrying the binding
text. -/
theorem C4_bindings_overwrite_last_chunk_witness :
    (split_code ("a.py") bodyAssignThenDef).getLast? =
      some (gvOverwrite ((runLoop ("a.py") bodyAssignThenDef).global_vars)
        (Stmt.functionDef ("f") ⟨2, 2, "def f(): return 1", "def f():\n    return 1"⟩)) := by
  have h := C4_bindings_overwrite_last_chunk ("a.py") bodyAssignThenDef
      (Stmt.functionDef ("f") ⟨2, 2, "def f(): return 1", "def f():\n    return 1"⟩)
      ⟨Stmt.assign ⟨1, 1, "x = 1", "x = 1"⟩, List.mem_cons_self _ _, rfl⟩ rfl
  exact h.2.2.1 rfl

/-- C5: evaluation at the failing input. The chunk emitted for a
single function definition carries a metadata dict holding only name
and type: the file_name key set in the template was discarded when the
branch replaced the whole dict, so no chunk records the base file name
passed to the call. -/
theorem C5_file_name_dropped :
    split_code ("a.py") scenarioSingleDef =
      [⟨⟨some ("f"), some ("FunctionDef"), none⟩, some 1, some 1,
        some ("def f():\n    return 1")⟩]
    ∧ (split_code ("a.py") scenarioSingleDef).map (fun c => c.metadata.file_name) =
      [none] :=
  ⟨rfl, rfl⟩

/-- C6: evaluation at the failing input. For an assignment followed by
a function definition, the declaration chunk for the function is first
emitted but then overwritten in place by the end-of-pass binding
handling, so the returned chunk carries the class name instead of the
declared identifier, the sentinel span instead of the parser-reported
span, and the binding text instead of the reconstructed source. -/
theorem C6_declaration_chunk_clobbered :
    split_code ("a.py") bodyAssignThenDef =
      [⟨⟨some ("FunctionDef"), some ("Gloal variable or assignment"), none⟩,
        some 0, some 0, some ("x = 1\n")⟩]
    ∧ buildChunk ("a.py")
        (Stmt.functionDef ("f") ⟨2, 2, "def f(): return 1", "def f():\n    return 1"⟩) =
      ⟨⟨some ("f"), some ("FunctionDef"), none⟩, some 2, some 2,
        some ("def f():\n    return 1")⟩ :=
  ⟨rfl, rfl⟩

/-- C7: the engine fails exactly when the parse outcome is a failure,
in which case the error is surfaced unchanged and no chunk is produced;
a successful parse always yields a chunk sequence; and the parse of
empty input, which is valid, yields the empty chunk sequence. The
embedding is a pure function, so a failing call leaves no partial
state behind. -/
theorem C7_parse_error_all_or_nothing :
    ∀ (f : String),
      (∀ e : String, split_code_checked (Except.error e) f = Except.error e)
      ∧ (∀ parsed : Except String (List Stmt),
          (split_code_checked parsed f).isOk = parsed.isOk)
      ∧ split_code_checked parseOfEmptyInput f = Except.ok [] := by
  intro f
  refine ⟨fun _ => rfl, fun parsed => ?_, rfl⟩
  cases parsed <;> rfl

/-- C8: the chunks emitted during the pass are exactly the
per-statement chunks of the emitting statements, taken in source order
(a filterMap over the body, hence an order-preserving sublist of the
per-statement chunks), and the end-of-pass handling appends nothing:
the returned sequence is the loop output either unchanged or with only
its final element replaced. -/
theorem C8_order_preserved :
    ∀ (f : String) (body : List Stmt),
      (runLoop f body).slices = body.filterMap (emittedChunk f)
      ∧ List.Sublist ((runLoop f body).slices) (body.map (buildChunk f))
      ∧ (split_code f body = (runLoop f body).slices
         ∨ ∃ c : Chunk, (runLoop f body).slices ≠ [] ∧
             split_code f body = (runLoop f body).slices.dropLast ++ [c]) := by
  intro f body
  refine ⟨runLoop_slices f body, ?_, ?_⟩
  · rw [runLoop_slices f body]
    exact filterMap_if_sublist (fun n => (buildChunk f n).code.isSome)
      (buildChunk f) body
  · by_cases hgv : (runLoop f body).global_vars ≠ ""
    · cases hl : (runLoop f body).last with
      | none =>
        left
        exact split_code_eq_of_no_last f body hl
      | some node =>
        have heq := split_code_eq_of_last f body node hgv hl
        by_cases hc : (buildChunk f node).code.isSome = true
        · right
          refine ⟨gvOverwrite (runLoop f body).global_vars node, ?_, ?_⟩
          · have hlast : body.getLast? = some node := by
              rw [← runLoop_last f body, hl]
            have hdec := slices_decomp f body node hlast hc
            rw [hdec]
            simp
          · rw [heq, if_pos hc]
        · left
          rw [heq, if_neg hc]
    · left
      unfold split_code
      rw [if_neg hgv]

/-- C9: every top-level statement is accounted for by exactly one of
the three destinations the code maintains: its own emitted chunk, the
binding buffer, or the unrecognized-construct diagnostic (the code
keeps no import buffer, so the import-buffer category of the claim is
always empty and import statements are accounted for by their own
chunks); running the loop on a single statement puts exactly one item
into exactly one destination, so no statement is silently dropped. -/
theorem C9_every_statement_accounted :
    ∀ (f : String) (node : Stmt),
      (((buildChunk f node).code.isSome = true ∧ (bindingSrc node).isSome = false
          ∧ (diagnosticMsg node).isSome = false)
        ∨ ((buildChunk f node).code.isSome = false ∧ (bindingSrc node).isSome = true
          ∧ (diagnosticMsg node).isSome = false)
        ∨ ((buildChunk f node).code.isSome = false ∧ (bindingSrc node).isSome = false
          ∧ (diagnosticMsg node).isSome = true))
      ∧ (runLoop f [node]).slices.length + (runLoop f [node]).diagnostics.length
          + (if (bindingSrc node).isSome then 1 else 0) = 1 := by
  intro f node
  cases node with
  | functionDef name info => exact ⟨Or.inl ⟨rfl, rfl, rfl⟩, rfl⟩
  | asyncFunctionDef name info => exact ⟨Or.inl ⟨rfl, rfl, rfl⟩, rfl⟩
  | classDef name info => exact ⟨Or.inl ⟨rfl, rfl, rfl⟩, rfl⟩
  | importStmt info => exact ⟨Or.inl ⟨rfl, rfl, rfl⟩, rfl⟩
  | importFrom info => exact ⟨Or.inl ⟨rfl, rfl, rfl⟩, rfl⟩
  | assign info => exact ⟨Or.inr (Or.inl ⟨rfl, rfl, rfl⟩), rfl⟩
  | annAssign info => exact ⟨Or.inr (Or.inl ⟨rfl, rfl, rfl⟩), rfl⟩
  | augAssign info => exact ⟨Or.inr (Or.inl ⟨rfl, rfl, rfl⟩), rfl⟩
  | globalStmt info => exact ⟨Or.inr (Or.inl ⟨rfl, rfl, rfl⟩), rfl⟩
  | other kind info => exact ⟨Or.inr (Or.inr ⟨rfl, rfl, rfl⟩), rfl⟩
  | ifStmt test info =>
    by_cases h : entryPointTest test = true
    · refine ⟨Or.inl ⟨?_, rfl, ?_⟩, ?_⟩
      · simp [buildChunk, h]
      · simp [diagnosticMsg, h]
      · simp [runLoop, stepLoop, buildChunk, diagnosticMsg, h, gvContribution,
          bindingSrc]
    · have h' : entryPointTest test = false := by
        simpa using h
      refine ⟨Or.inr (Or.inr ⟨?_, rfl, ?_⟩), ?_⟩
      · simp [buildChunk, h', chunkTemplate]
      · simp [diagnosticMsg, h']
      · simp [runLoop, stepLoop, buildChunk, diagnosticMsg, h', gvContribution,
          bindingSrc, chunkTemplate]

/-- C10: the chunk sequence returned by a call depends only on the
parsed statement list and the file name. The only side effect of
split_code is printing diagnostics; modelling the stdout log as
explicit state, the chunk output is independent of the incoming log,
equals the pure function of the inputs, and a second invocation on the
same inputs, observing the log the first call left behind, returns an
identical chunk sequence. Parsing itself is deterministic, so equal
source text gives an equal statement list. -/
theorem C10_deterministic :
    ∀ (log1 log2 : List String) (f : String) (body : List Stmt),
      (split_code_logged log1 f body).1 = split_code f body
      ∧ (split_code_logged log1 f body).1 = (split_code_logged log2 f body).1
      ∧ (split_code_logged ((split_code_logged log1 f body).2) f body).1
          = (split_code_logged log1 f body).1 := by
  intro log1 log2 f body
  exact ⟨rfl, rfl, rfl⟩

end SecLint
